import Mathlib

/-!
Verification of the timeline-chart rendering engine (ganttBuilder.js,
authorizer.js, handler.js).  Calendar dates are modelled as integers
(day numbers); task records carry the already-parsed field values.
-/

namespace Gantt

/-- Task record, one per maintenance activity.  `warning` and
`percentComplete` are `Option`s: `none` models an absent field
(JS `undefined`), and for `percentComplete` also a value whose numeric
coercion is `NaN`. -/
structure Task where
  componentGroup : String
  aircraft : String
  mro : String
  warning : Option String
  startDate : Int
  endDate : Int
  percentComplete : Option ℚ
deriving DecidableEq

/-- Truthiness of a JS string value: `undefined` and `""` are falsy. -/
def jsTruthy : Option String → Bool
  | none => false
  | some s => !(s == "")

/-- Severity class, from ganttBuilder.js line 84:
`Warning === 'Work Stoppage' ? 'warning-critical' : Warning && Warning !== 'N/A' ? 'warning-caution' : ''`. -/
def warnClass (w : Option String) : String :=
  if w == some "Work Stoppage" then "warning-critical"
  else if jsTruthy w && !(w == some "N/A") then "warning-caution"
  else ""

/-- Warning cell text, from `${Warning || 'N/A'}` (line 98). -/
def warnText (w : Option String) : String :=
  if jsTruthy w then w.getD "N/A" else "N/A"

/-- Completion fraction, from `+t.PercentComplete || 0` (line 83): an absent
field or a NaN coercion (`none`) and the value `0` both give `0`. -/
def jsOr0 : Option ℚ → ℚ
  | none => 0
  | some q => if q == 0 then 0 else q

/-- Magnitude part of `Number.prototype.toFixed(1)`: round to one decimal,
ties toward the larger digit string. -/
def fixed1Mag (q : ℚ) : String :=
  let n : Int := Int.floor (q * 10 + 1/2)
  toString (n / 10) ++ "." ++ toString (n % 10)

/-- JS `x.toFixed(1)`: the sign is taken first, then the magnitude is
rounded half-up. -/
def toFixed1 (q : ℚ) : String :=
  if q < 0 then "-" ++ fixed1Mag (-q) else fixed1Mag q

/-- One cell of a rendered task row: either the merged bar cell
(`colspan`, completion variant, fill width, percent label, severity
class) or an ordinary empty cell (marked when it is today's column). -/
inductive Cell where
  | fill (span : Nat) (complete : Bool) (widthPct : Int) (label : String) (warn : String)
  | empty (isToday : Bool)
deriving DecidableEq

/-- Bar cell built at ganttBuilder.js lines 112-118: the `complete` class is
added when `pct >= 1`, the fill width is `Math.floor(pct * 100)` percent and
the label is `(pct * 100).toFixed(1)` followed by `%`. -/
def fillCell (span : Nat) (pct : ℚ) (warn : String) : Cell :=
  Cell.fill span (decide (1 ≤ pct)) (Int.floor (pct * 100)) (toFixed1 (pct * 100) ++ "%") warn

def Cell.complete : Cell → Bool
  | .fill _ c _ _ _ => c
  | .empty _ => false

def Cell.widthPct : Cell → Int
  | .fill _ _ w _ _ => w
  | .empty _ => 0

def Cell.labelOf : Cell → String
  | .fill _ _ _ l _ => l
  | .empty _ => ""

def Cell.isFill : Cell → Bool
  | .fill _ _ _ _ _ => true
  | .empty _ => false

/-! ### Access gate (authorizer.js) -/

inductive Effect where
  | allow
  | deny
deriving DecidableEq

/-- IAM-style policy returned by the authorizer: principal, effect of the
single statement, and the `context.user` tag. -/
structure AuthPolicy where
  principalId : String
  effect : Effect
  contextUser : String
deriving DecidableEq

/-- Access gate, authorizer.js lines 2-44: the `x-api-key` header is compared
with `===` against `process.env.AUTH_TOKEN`; equality yields an Allow policy
tagged `trusted-client`, anything else a Deny policy tagged `unauthorized`. -/
def authorize (token expectedToken : Option String) : AuthPolicy :=
  if token == expectedToken then ⟨"user", Effect.allow, "trusted-client"⟩
  else ⟨"user", Effect.deny, "unauthorized"⟩

/-! ### Render handler (handler.js) -/

/-- Parsed JSON value as produced by `JSON.parse`. -/
inductive Json where
  | null
  | bool (b : Bool)
  | num (q : ℚ)
  | str (s : String)
  | arr (elems : List Json)
  | obj (fields : List (String × Json))

structure HttpResp where
  statusCode : Nat
  body : String
deriving DecidableEq

/-- JS property read `body.tasks`: reading a property of `null` throws a
`TypeError` (modelled as `Except.error`), any other non-object value yields
`undefined` (`none`), an object yields its binding if present. -/
def jsGetField (j : Json) (k : String) : Except Unit (Option Json) :=
  match j with
  | .null => Except.error ()
  | .obj fields => Except.ok ((fields.find? (fun kv => kv.1 == k)).map (·.2))
  | _ => Except.ok none

/-- Input validation of handler.js lines 10-21.  The argument is the outcome
of `JSON.parse(event.body || '{}')` (`Except.error` when parsing throws).
A throw from the `body.tasks` property read happens inside the same `try`
and is therefore also answered with the Malformed JSON response. -/
def renderValidate (parsed : Except Unit Json) : Except HttpResp (List Json) :=
  match parsed with
  | .error _ => Except.error ⟨400, "\x7b\"error\":\"Malformed JSON\"\x7d"⟩
  | .ok body =>
    match jsGetField body "tasks" with
    | .error _ => Except.error ⟨400, "\x7b\"error\":\"Malformed JSON\"\x7d"⟩
    | .ok (some (.arr ts)) => Except.ok ts
    | .ok _ => Except.error ⟨400, "\x7b\"error\":\"Invalid or missing tasks array\"\x7d"⟩

/-- Browser lifecycle of handler.js lines 24-41, after validation succeeded.
`loadOk` is whether `page.setContent` resolves, `shotOk` whether
`page.screenshot` resolves.  The pair records whether `browser.close()` ran
before control left the handler, and the response if one was produced (a
rejection propagates out of the handler, producing none).  There is no
`try`/`finally` around these awaits in the source. -/
def renderBrowserPhase (loadOk shotOk : Bool) : Bool × Option HttpResp :=
  if loadOk = false then (false, none)
  else if shotOk = false then (false, none)
  else (true, some ⟨200, "png"⟩)

/-! ### Date-grid builder (ganttBuilder.js, getTimelineRange) -/

/-- Consecutive run of `n` calendar days starting at `lo`, the model of
`eachDayOfInterval`. -/
def intRange (lo : Int) : Nat → List Int
  | 0 => []
  | n + 1 => lo :: intRange (lo + 1) n

/-- Sampling filter of getTimelineRange (lines 16-18):
`fullRange.filter((d, i) => i % 2 === 0 || format(d) === todayStr)`,
with `i` the running array index. -/
def sampleAux (today : Int) : Nat → List Int → List Int
  | _, [] => []
  | i, d :: ds =>
    if i % 2 = 0 ∨ d = today then d :: sampleAux today (i + 1) ds
    else sampleAux today (i + 1) ds

/-- getTimelineRange (lines 7-19): every day from the earliest start date
minus 3 to the latest end date plus 3, then the even-index-or-today
sampling filter.  An empty task list leaves the bounds undefined
(Invalid Date in the source); the model returns the empty grid there. -/
def getTimelineRange (today : Int) (tasks : List Task) : List Int :=
  match (tasks.map Task.startDate).min?, (tasks.map Task.endDate).max? with
  | some mn, some mx =>
    sampleAux today 0 (intRange (mn - 3) ((mx + 3) - (mn - 3) + 1).toNat)
  | _, _ => []

/-- Modelled from the spec's wording of the date-grid: enumerate every
calendar day in the closed interval `[lo, hi]` and keep a day exactly when
its zero-based offset from `lo` is even or it equals today. -/
def specDateGrid (today lo hi : Int) : List Int :=
  (intRange lo (hi - lo + 1).toNat).filter
    (fun d => decide ((d - lo) % 2 = 0) || decide (d = today))

/-! ### Task grouper/sorter (ganttBuilder.js, buildHTML lines 58-75) -/

/-- Entry of the `earliestMro` map (lines 63-67): minimum end date among all
tasks of the list whose `MRO` equals `m`. -/
def minEndMro (ts : List Task) (m : String) : Int :=
  (((ts.filter (fun u => u.mro == m)).map Task.endDate).min?).getD 0

/-- Entry of the `earliestAc` map (lines 63-67): minimum end date among all
tasks of the list whose `Aircraft` equals `ac` — keyed by aircraft alone,
across every facility. -/
def minEndAc (ts : List Task) (ac : String) : Int :=
  (((ts.filter (fun u => u.aircraft == ac)).map Task.endDate).min?).getD 0

/-- Sort key of the comparator at lines 69-75: facility minimum end date,
then the (facility-blind) aircraft minimum end date, then the task's own
end date. -/
def codeKey (ts : List Task) (t : Task) : Int × Int × Int :=
  (minEndMro ts t.mro, minEndAc ts t.aircraft, t.endDate)

/-- Modelled from the spec's wording of the secondary sort key: minimum end
date of the (facility, aircraft) pair, computed only among that facility's
tasks. -/
def minEndPair (ts : List Task) (m ac : String) : Int :=
  (((ts.filter (fun u => u.mro == m && u.aircraft == ac)).map Task.endDate).min?).getD 0

/-- Modelled from the spec's wording of the three-level sort key, with the
secondary key scoped to the (facility, aircraft) pair. -/
def claimKey (ts : List Task) (t : Task) : Int × Int × Int :=
  (minEndMro ts t.mro, minEndPair ts t.mro t.aircraft, t.endDate)

/-- Lexicographic comparison of key triples; `lexLe3 p q` states that a JS
comparator returning the first nonzero of the componentwise differences
would return a value `≤ 0`. -/
def lexLe3 (p q : Int × Int × Int) : Prop :=
  p.1 < q.1 ∨ (p.1 = q.1 ∧ (p.2.1 < q.2.1 ∨ (p.2.1 = q.2.1 ∧ p.2.2 ≤ q.2.2)))

instance (p q : Int × Int × Int) : Decidable (lexLe3 p q) := by
  unfold lexLe3; infer_instance

/-- Preorder induced by the comparator of lines 69-75. -/
def taskLe (ts : List Task) (a b : Task) : Prop := lexLe3 (codeKey ts a) (codeKey ts b)

instance (ts : List Task) : DecidableRel (taskLe ts) := fun _ _ => by
  unfold taskLe; infer_instance

instance (ts : List Task) : IsTotal Task (taskLe ts) :=
  ⟨by intro a b; unfold taskLe lexLe3; omega⟩

instance (ts : List Task) : IsTrans Task (taskLe ts) :=
  ⟨by intro a b c; unfold taskLe lexLe3; omega⟩

/-- The in-place `tasks.sort(comparator)` of lines 69-75.  JS `Array.sort`
is a stable sort ordered by the comparator's sign, which is exactly
`List.insertionSort` under the induced total preorder. -/
def sortTasks (ts : List Task) : List Task := ts.insertionSort (taskLe ts)

/-- Modelled from the spec's wording of the sort: the same stable sort under
the key whose secondary component is scoped to the (facility, aircraft)
pair. -/
def taskLeClaim (ts : List Task) (a b : Task) : Prop :=
  lexLe3 (claimKey ts a) (claimKey ts b)

instance (ts : List Task) : DecidableRel (taskLeClaim ts) := fun _ _ => by
  unfold taskLeClaim; infer_instance

/-- Stable three-level sort exactly as the spec words it. -/
def sortTasksClaim (ts : List Task) : List Task := ts.insertionSort (taskLeClaim ts)

/-! ### Span layout engine (buildHTML lines 99-124) -/

/-- Cell loop of one task row (lines 102-124): walk the grid left to right;
at the first not-yet-placed day inside `[s, e]` emit the merged bar cell
whose colspan is the number of grid days inside the interval and skip the
following `span - 1` grid days; every other day emits an empty cell,
marked when it is today. -/
def rowCellsAux (today s e : Int) (pct : ℚ) (warn : String) (full : List Int) :
    Bool → List Int → List Cell
  | _, [] => []
  | placed, d :: ds =>
    if !placed && decide (s ≤ d) && decide (d ≤ e) then
      fillCell ((full.filter (fun dt => decide (s ≤ dt) && decide (dt ≤ e))).length) pct warn ::
        rowCellsAux today s e pct warn full true
          (ds.drop ((full.filter (fun dt => decide (s ≤ dt) && decide (dt ≤ e))).length - 1))
    else
      Cell.empty (decide (d = today)) :: rowCellsAux today s e pct warn full placed ds
termination_by _ l => l.length
decreasing_by
  all_goals simp only [List.length_cons, List.length_drop]
  all_goals omega

/-- Cells of one task row over the grid `range`. -/
def rowCells (today s e : Int) (pct : ℚ) (warn : String) (range : List Int) : List Cell :=
  rowCellsAux today s e pct warn range false range

/-- Column footprint of a cell: a bar cell with colspan `n` covers `n` grid
columns, an empty cell covers one. -/
def cellCols : Cell → List Bool
  | .fill n _ _ _ _ => List.replicate n true
  | .empty _ => [false]

/-- Per-column bar coverage of a row, left to right. -/
def barMask (cells : List Cell) : List Bool := (cells.map cellCols).flatten

/-! ### Document body (buildHTML lines 77-126) -/

/-- One body row of the rendered table. -/
inductive Row where
  | mroSpacer
  | mroHeader (name : String)
  | acHeader (name : String)
  | taskRow (grp : String) (warnCellText : String) (warnCellClass : String) (cells : List Cell)
deriving DecidableEq

def Row.isTask : Row → Bool
  | .taskRow _ _ _ _ => true
  | _ => false

/-- Task row emitted for one task (lines 98-125). -/
def taskRowOf (today : Int) (range : List Int) (t : Task) : Row :=
  Row.taskRow t.componentGroup (warnText t.warning) (warnClass t.warning)
    (rowCells today t.startDate t.endDate (jsOr0 t.percentComplete) (warnClass t.warning) range)

/-- Body loop (lines 79-126): emit a facility spacer/header when the MRO
changes (resetting the aircraft tracker), an aircraft header when the
aircraft changes, then the task row. -/
def buildBodyAux (today : Int) (range : List Int) : String → String → List Task → List Row
  | _, _, [] => []
  | lastMro, lastAc, t :: rest =>
    (if t.mro ≠ lastMro then
      (if lastMro ≠ "" then [Row.mroSpacer] else []) ++ [Row.mroHeader t.mro]
    else []) ++
    (if t.aircraft ≠ (if t.mro ≠ lastMro then "" else lastAc) then [Row.acHeader t.aircraft]
      else []) ++
    taskRowOf today range t :: buildBodyAux today range t.mro t.aircraft rest

/-- Body of buildHTML: copy the caller's list, sort it, compute the grid
from the sorted copy (line 78) and emit the rows. -/
def buildBody (today : Int) (tasksRaw : List Task) : List Row :=
  buildBodyAux today (getTimelineRange today (sortTasks tasksRaw)) "" "" (sortTasks tasksRaw)

/-! ### Array store, for the no-mutation property of line 58 -/

/-- Store of task arrays; a JS array variable is a reference into it. -/
structure Store where
  arrays : List (List Task)

def Store.get (st : Store) (ref : Nat) : List Task := st.arrays.getD ref []

def Store.alloc (st : Store) (v : List Task) : Store × Nat :=
  (⟨st.arrays ++ [v]⟩, st.arrays.length)

def Store.set (st : Store) (ref : Nat) (v : List Task) : Store :=
  ⟨st.arrays.set ref v⟩

/-- buildHTML with array mutation made explicit: `const tasks = [...tasksRaw]`
(line 58) allocates a fresh array holding a copy of the caller's elements,
and `tasks.sort(...)` (line 69) overwrites only that fresh array. -/
def buildHTMLStore (today : Int) (st : Store) (tasksRawRef : Nat) : Store × List Row :=
  let tasksRaw := st.get tasksRawRef
  let st1 := (st.alloc tasksRaw).1
  let tasksRef := (st.alloc tasksRaw).2
  let st2 := st1.set tasksRef (sortTasks (st1.get tasksRef))
  (st2, buildBodyAux today (getTimelineRange today (st2.get tasksRef)) "" "" (st2.get tasksRef))

/-- Concrete one-task list used to witness the grid claims. -/
def wtask1 : Task := ⟨"Wheel", "N100", "FacilityA", none, 0, 1, none⟩

/-- Concrete one-task list used to witness the span-layout claims. -/
def wtask3 : Task := ⟨"Seats", "N200", "FacilityB", none, 0, 1, none⟩

/-- Task exhibiting the aircraft-key scoping: aircraft `X` of facility `A`,
finishing late. -/
def ct1 : Task := ⟨"G1", "X", "A", none, 0, 10, none⟩

/-- Task of facility `A`, aircraft `Y`, finishing mid. -/
def ct2 : Task := ⟨"G2", "Y", "A", none, 0, 5, none⟩

/-- Task of facility `B` reusing aircraft identifier `X`, finishing first:
it drags facility `A`'s aircraft-`X` key down because the `earliestAc` map
is keyed by aircraft alone. -/
def ct3 : Task := ⟨"G3", "X", "B", none, 0, 1, none⟩

/-! ## Theorems -/

/-- Membership in a consecutive day run. -/
theorem intRange_mem {x lo : Int} : ∀ {n : Nat}, x ∈ intRange lo n ↔ lo ≤ x ∧ x < lo + n := by
  intro n
  induction n generalizing lo with
  | zero => simp [intRange]
  | succ n ih =>
    simp only [intRange, List.mem_cons, ih]
    omega

/-- The index-based sampling filter of getTimelineRange agrees with the
offset-based filter: the running index of a day in the enumerated interval
is its offset from the interval's first day. -/
theorem sampleAux_eq_filter (today : Int) :
    ∀ (n : Nat) (lo : Int) (i : Nat),
      sampleAux today i (intRange lo n) =
        (intRange lo n).filter
          (fun d => decide (((i : Int) + (d - lo)) % 2 = 0) || decide (d = today)) := by
  intro n
  induction n with
  | zero => intro lo i; rfl
  | succ n ih =>
    intro lo i
    have hshift : ∀ d : Int,
        (decide (((((i + 1 : Nat)) : Int) + (d - (lo + 1))) % 2 = 0) || decide (d = today)) =
          (decide (((i : Int) + (d - lo)) % 2 = 0) || decide (d = today)) := by
      intro d
      congr 1
      exact decide_eq_decide.mpr (by omega)
    by_cases hc : i % 2 = 0 ∨ lo = today
    · have hb : (decide (((i : Int) + (lo - lo)) % 2 = 0) || decide (lo = today)) = true := by
        rcases hc with hc | hc
        · exact Bool.or_eq_true_iff.mpr (Or.inl (decide_eq_true (by omega)))
        · exact Bool.or_eq_true_iff.mpr (Or.inr (decide_eq_true hc))
      simp only [intRange, sampleAux, if_pos hc, List.filter_cons, hb, if_pos]
      rw [ih (lo + 1) (i + 1), List.filter_congr (fun d _ => hshift d)]
    · have hb : (decide (((i : Int) + (lo - lo)) % 2 = 0) || decide (lo = today)) = false := by
        push_neg at hc
        refine Bool.or_eq_false_iff.mpr ⟨decide_eq_false (by omega), decide_eq_false hc.2⟩
      simp only [intRange, sampleAux, if_neg hc, List.filter_cons, hb, if_neg, Bool.false_eq_true,
        not_false_eq_true]
      rw [ih (lo + 1) (i + 1), List.filter_congr (fun d _ => hshift d)]

/-- The produced date-grid is the spec's offset-filtered enumeration of the
padded interval. -/
theorem getTimelineRange_grid (today mn mx : Int) (tasks : List Task)
    (hmn : (tasks.map Task.startDate).min? = some mn)
    (hmx : (tasks.map Task.endDate).max? = some mx) :
    getTimelineRange today tasks = specDateGrid today (mn - 3) (mx + 3) := by
  simp only [getTimelineRange, hmn, hmx, specDateGrid]
  rw [sampleAux_eq_filter]
  apply List.filter_congr
  intro d _
  congr 1
  exact decide_eq_decide.mpr (by omega)

/-- C1: for a task list whose minimum start date is `mn` and maximum end
date is `mx`, the date-grid is exactly the days of the closed interval
`[mn - 3, mx + 3]` whose zero-based offset from the lower bound is even or
which equal today, and every day of the interval equal to today is in the
grid. -/
theorem getTimelineRange_spec (today mn mx : Int) (tasks : List Task)
    (hmn : (tasks.map Task.startDate).min? = some mn)
    (hmx : (tasks.map Task.endDate).max? = some mx) :
    getTimelineRange today tasks = specDateGrid today (mn - 3) (mx + 3) ∧
    (∀ d ∈ intRange (mn - 3) ((mx + 3) - (mn - 3) + 1).toNat, d = today →
      d ∈ getTimelineRange today tasks) := by
  have hg := getTimelineRange_grid today mn mx tasks hmn hmx
  refine ⟨hg, fun d hd hdt => ?_⟩
  rw [hg]
  unfold specDateGrid
  rw [List.mem_filter]
  exact ⟨hd, by simp [hdt]⟩

/-- C1 (witness): a single task from day 0 to day 1, with day 0 as today:
the grid is the filtered enumeration of `[-3, 4]` and contains today. -/
theorem getTimelineRange_spec_witness :
    (([wtask1] : List Task).map Task.startDate).min? = some 0 ∧
    getTimelineRange 0 [wtask1] = specDateGrid 0 (0 - 3) (1 + 3) ∧
    (0 : Int) ∈ getTimelineRange 0 [wtask1] := by
  have h := getTimelineRange_spec 0 0 1 [wtask1] rfl rfl
  exact ⟨rfl, h.1, h.2 0 (by decide) rfl⟩

/-- C4 (counterexample): the warning value the spec spells `WorkStoppage`
is not the code's trigger string; it contains no space, so line 84's
`===` comparison fails and the row gets caution styling, not critical. -/
theorem warnClass_counterexample :
    warnClass (some "WorkStoppage") = "warning-caution" ∧
    warnClass (some "WorkStoppage") ≠ "warning-critical" := by decide

/-- C4 (amended): critical styling exactly when the Warning field equals
`"Work Stoppage"` (with a space); caution styling exactly for any other
non-empty string different from `"N/A"`; no severity styling when the
field is absent, empty, or `"N/A"`. -/
theorem warnClass_severity (w : Option String) :
    (warnClass w = "warning-critical" ↔ w = some "Work Stoppage") ∧
    (warnClass w = "warning-caution" ↔
      ∃ s, w = some s ∧ s ≠ "" ∧ s ≠ "N/A" ∧ s ≠ "Work Stoppage") ∧
    ((w = none ∨ w = some "" ∨ w = some "N/A") → warnClass w = "") := by
  match w with
  | none => exact ⟨by simp [warnClass, jsTruthy], by simp [warnClass, jsTruthy], fun _ => by
      simp [warnClass, jsTruthy]⟩
  | some s =>
    by_cases h1 : s = "Work Stoppage"
    · subst h1
      refine ⟨by simp [warnClass], ?_, ?_⟩
      · simp only [warnClass, jsTruthy]
        simp
      · rintro (h | h | h) <;> simp_all
    · by_cases h2 : s = ""
      · subst h2
        exact ⟨by simp [warnClass, jsTruthy], by simp [warnClass, jsTruthy], fun _ => by
          simp [warnClass, jsTruthy]⟩
      · by_cases h3 : s = "N/A"
        · subst h3
          exact ⟨by simp [warnClass, jsTruthy], by simp [warnClass, jsTruthy], fun _ => by
            simp [warnClass, jsTruthy]⟩
        · refine ⟨?_, ?_, ?_⟩
          · simp [warnClass, jsTruthy, h1, h2, h3]
          · simp [warnClass, jsTruthy, h1, h2, h3]
          · rintro (h | h | h) <;> simp_all

/-- C4 (witness): an absent warning gets no severity class. -/
theorem warnClass_severity_witness : warnClass none = "" :=
  (warnClass_severity none).2.2 (Or.inl rfl)

/-- C5 (counterexample): the emitted fill width is `Math.floor(pct * 100)`
percent with no cap, so `percentComplete = 2` renders a width of 200%,
exceeding 100%. -/
theorem completionBar_counterexample :
    (fillCell 1 2 "").widthPct = 200 ∧ ¬ (fillCell 1 2 "").widthPct ≤ 100 := by
  have h : (fillCell 1 2 "").widthPct = 200 := by
    simp only [fillCell, Cell.widthPct]
    norm_num
  exact ⟨h, by rw [h]; decide⟩

/-- C5 (amended): the completion sub-bar carries the complete variant
exactly when `percentComplete ≥ 1`; the emitted fill width is always
`⌊100 · percentComplete⌋` percent, uncapped; for `0 ≤ p < 1` the sub-bar is
the in-progress variant and its width lies in `[0, 100)`. -/
theorem completionBar_spec (span : Nat) (p : ℚ) (w : String) :
    ((fillCell span p w).complete = true ↔ 1 ≤ p) ∧
    (fillCell span p w).widthPct = Int.floor (p * 100) ∧
    (0 ≤ p → p < 1 →
      (fillCell span p w).complete = false ∧
      0 ≤ (fillCell span p w).widthPct ∧ (fillCell span p w).widthPct < 100) := by
  refine ⟨by simp [fillCell, Cell.complete], rfl, fun h0 h1 => ⟨?_, ?_, ?_⟩⟩
  · simp only [fillCell, Cell.complete, decide_eq_false_iff_not]
    intro h
    linarith
  · simp only [fillCell, Cell.widthPct]
    exact Int.floor_nonneg.mpr (by positivity)
  · simp only [fillCell, Cell.widthPct]
    rw [Int.floor_lt]
    push_cast
    nlinarith

/-- C5 (witness): a half-done bar is in-progress with width inside
`[0, 100)`. -/
theorem completionBar_spec_witness :
    (0:ℚ) ≤ 0 ∧ (0:ℚ) < 1 ∧
    ((fillCell 1 0 "").complete = false ∧
      0 ≤ (fillCell 1 0 "").widthPct ∧ (fillCell 1 0 "").widthPct < 100) :=
  ⟨by decide, by decide, (completionBar_spec 1 0 "").2.2 (by decide) (by decide)⟩

/-- C6: with a configured expected token, the gate returns the Allow policy
tagged `trusted-client` exactly when the supplied header equals it, and any
other case (missing or mismatched header) returns a Deny policy. -/
theorem authorize_spec (token : Option String) (s : String) :
    ((authorize token (some s)).effect = Effect.allow ∧
      (authorize token (some s)).contextUser = "trusted-client" ↔ token = some s) ∧
    (token ≠ some s → (authorize token (some s)).effect = Effect.deny) := by
  by_cases h : token = some s
  · subst h
    simp [authorize]
  · constructor
    · simp [authorize, h]
    · intro _
      simp [authorize, h]

/-- C6 (witness): a missing header against a configured token is denied. -/
theorem authorize_spec_witness :
    (none ≠ some "k") ∧ (authorize none (some "k")).effect = Effect.deny :=
  ⟨by decide, (authorize_spec none "k").2 (by decide)⟩

/-- C8: evaluating the handler's browser phase at the failing input (the
document load rejects) shows `browser.close()` never runs, while it does run
on the success path — the close call is skipped on both failure paths. -/
theorem renderBrowserPhase_leak :
    (renderBrowserPhase false true).1 = false ∧
    (renderBrowserPhase true false).1 = false ∧
    (renderBrowserPhase true true).1 = true := by decide

/-- C10: an absent `PercentComplete`, a NaN coercion, or the value `0` all
yield completion fraction exactly `0`: the in-progress variant, a `0`
percent fill width, and the label `0.0%`. -/
theorem percentComplete_default (p : Option ℚ) (span : Nat) (w : String)
    (h : p = none ∨ p = some 0) :
    jsOr0 p = 0 ∧
    (fillCell span (jsOr0 p) w).complete = false ∧
    (fillCell span (jsOr0 p) w).widthPct = 0 ∧
    (fillCell span (jsOr0 p) w).labelOf = "0.0%" := by
  have hp : jsOr0 p = 0 := by
    rcases h with h | h <;> simp [h, jsOr0]
  rw [hp]
  refine ⟨rfl, ?_, ?_, ?_⟩
  · simp only [fillCell, Cell.complete, decide_eq_false_iff_not]
    norm_num
  · simp only [fillCell, Cell.widthPct]
    norm_num
  · simp only [fillCell, Cell.labelOf, toFixed1, fixed1Mag]
    norm_num
    decide

/-- C10 (witness): an absent field renders the zero bar. -/
theorem percentComplete_default_witness :
    jsOr0 none = 0 ∧
    (fillCell 1 (jsOr0 none) "").complete = false ∧
    (fillCell 1 (jsOr0 none) "").widthPct = 0 ∧
    (fillCell 1 (jsOr0 none) "").labelOf = "0.0%" :=
  percentComplete_default none 1 "" (Or.inl rfl)

/-- C7 (counterexample): a request body of `null` parses as valid JSON and
has no tasks field, yet the handler answers the Malformed JSON response,
because the `body.tasks` property read throws inside the `try` block; the
two response bodies differ. -/
theorem renderValidate_counterexample :
    renderValidate (Except.ok Json.null) =
      Except.error ⟨400, "\x7b\"error\":\"Malformed JSON\"\x7d"⟩ ∧
    (⟨400, "\x7b\"error\":\"Malformed JSON\"\x7d"⟩ : HttpResp) ≠
      ⟨400, "\x7b\"error\":\"Invalid or missing tasks array\"\x7d"⟩ :=
  ⟨rfl, by decide⟩

/-- C7 (amended): an unparseable body yields the client error
`{"error":"Malformed JSON"}`; a parsed body other than JSON `null` whose
tasks field is absent or not an array yields the client error
`{"error":"Invalid or missing tasks array"}` with no task list handed to
the renderer; a parsed body of JSON `null` also yields the Malformed JSON
error, because the property read throws inside the same `try`. -/
theorem renderValidate_spec :
    (∀ e : Unit, renderValidate (Except.error e) =
      Except.error ⟨400, "\x7b\"error\":\"Malformed JSON\"\x7d"⟩) ∧
    (∀ body : Json, body ≠ Json.null →
      (∀ ts : List Json, jsGetField body "tasks" ≠ Except.ok (some (Json.arr ts))) →
      renderValidate (Except.ok body) =
        Except.error ⟨400, "\x7b\"error\":\"Invalid or missing tasks array\"\x7d"⟩) ∧
    renderValidate (Except.ok Json.null) =
      Except.error ⟨400, "\x7b\"error\":\"Malformed JSON\"\x7d"⟩ := by
  refine ⟨fun _ => rfl, ?_, rfl⟩
  intro body hnull hna
  match body with
  | .null => exact absurd rfl hnull
  | .bool b => rfl
  | .num q => rfl
  | .str s => rfl
  | .arr xs => rfl
  | .obj fs =>
    have hg : jsGetField (Json.obj fs) "tasks" =
        Except.ok ((fs.find? (fun kv => kv.1 == "tasks")).map (·.2)) := rfl
    cases hfind : fs.find? (fun kv => kv.1 == "tasks") with
    | none =>
      simp only [renderValidate, hg, hfind, Option.map_none']
    | some kv =>
      cases hv : kv.2 with
      | arr ts =>
        exact absurd (by rw [hg, hfind, Option.map_some', hv]) (hna ts)
      | null => simp only [renderValidate, hg, hfind, Option.map_some', hv]
      | bool b => simp only [renderValidate, hg, hfind, Option.map_some', hv]
      | num q => simp only [renderValidate, hg, hfind, Option.map_some', hv]
      | str s => simp only [renderValidate, hg, hfind, Option.map_some', hv]
      | obj fs2 => simp only [renderValidate, hg, hfind, Option.map_some', hv]

/-- C7 (witness): an empty JSON object body (no tasks key) gets the
Invalid-or-missing-tasks-array response. -/
theorem renderValidate_spec_witness :
    renderValidate (Except.ok (Json.obj [])) =
      Except.error ⟨400, "\x7b\"error\":\"Invalid or missing tasks array\"\x7d"⟩ :=
  renderValidate_spec.2.1 (Json.obj [])
    (fun h => Json.noConfusion h)
    (fun _ h => Option.noConfusion (Except.ok.inj h))

/-- C9: rendering never mutates the caller's array: the copy at line 58 is
the array that gets sorted, so after `buildHTML` the caller's reference
still holds the same records in the same order, and the produced body is
the pure function of the caller's list. -/
theorem buildHTMLStore_frame (today : Int) (st : Store) (ref : Nat)
    (h : ref < st.arrays.length) :
    (buildHTMLStore today st ref).1.get ref = st.get ref ∧
    (buildHTMLStore today st ref).2 = buildBody today (st.get ref) := by
  have hne : st.arrays.length ≠ ref := Nat.ne_of_gt h
  have hcat : ∀ x : List Task, (st.arrays ++ [x]).getD st.arrays.length [] = x := fun x => by
    simp [List.getD_eq_getElem?_getD, List.getElem?_concat_length]
  constructor
  · simp only [buildHTMLStore, Store.get, Store.alloc, Store.set]
    rw [hcat]
    simp only [List.getD_eq_getElem?_getD]
    rw [List.getElem?_set_ne hne, List.getElem?_append_left h]
  · simp only [buildHTMLStore, Store.get, Store.alloc, Store.set, buildBody]
    rw [hcat]
    have hself : ((st.arrays ++ [st.arrays.getD ref []]).set st.arrays.length
        (sortTasks (st.arrays.getD ref []))).getD st.arrays.length [] =
        sortTasks (st.arrays.getD ref []) := by
      simp only [List.getD_eq_getElem?_getD]
      rw [List.getElem?_set_self (by simp)]
      rfl
    rw [hself]

/-- Reflexivity of the comparator preorder. -/
theorem lexLe3_refl (p : Int × Int × Int) : lexLe3 p p := by
  unfold lexLe3
  omega

/-- Every task of the body appears as exactly one task row, in list order;
separator rows carry no task. -/
theorem buildBodyAux_filter_isTask (today : Int) (range : List Int) :
    ∀ (l : List Task) (m a : String),
      (buildBodyAux today range m a l).filter Row.isTask = l.map (taskRowOf today range) := by
  intro l
  induction l with
  | nil => intro m a; rfl
  | cons t rest ih =>
    intro m a
    simp only [buildBodyAux, List.filter_append, List.filter_cons, List.map_cons]
    rw [ih]
    have h1 : Row.isTask (taskRowOf today range t) = true := rfl
    rw [h1]
    have h2 : ∀ cond1 : Prop, ∀ inst : Decidable cond1, ∀ cond2 : Prop, ∀ inst2 : Decidable cond2,
        List.filter Row.isTask
          (if cond1 then (if cond2 then [Row.mroSpacer] else []) ++ [Row.mroHeader t.mro]
            else []) = [] := by
      intro c1 i1 c2 i2
      split_ifs <;> rfl
    have h3 : ∀ cond1 : Prop, ∀ inst : Decidable cond1,
        List.filter Row.isTask (if cond1 then [Row.acHeader t.aircraft] else []) = [] := by
      intro c1 i1
      split_ifs <;> rfl
    rw [h2, h3]
    simp

/-- C2 (counterexample): with aircraft identifier `X` shared by facilities
`A` and `B`, the code's facility-blind aircraft key orders facility `A`'s
rows `[G1 (aircraft X), G2 (aircraft Y)]`, while the spec's pair-scoped key
orders them `[G2, G1]`; the two sorts disagree on this input. -/
theorem sortTasks_pair_counterexample :
    sortTasks [ct1, ct2, ct3] = [ct3, ct1, ct2] ∧
    sortTasksClaim [ct1, ct2, ct3] = [ct3, ct2, ct1] ∧
    sortTasks [ct1, ct2, ct3] ≠ sortTasksClaim [ct1, ct2, ct3] := by decide

/-- C2 (amended): buildHTML renders exactly one task row per task, in the
order of the stable three-level sort whose primary key is the facility's
minimum end date, whose secondary key is the minimum end date among all
tasks sharing the aircraft identifier (across every facility), and whose
tertiary key is the task's own end date; the sort is a permutation, it is
sorted under that lexicographic key, and any key-tied group keeps its
relative input order. -/
theorem sortTasks_order (today : Int) (ts : List Task) :
    (buildBody today ts).filter Row.isTask =
      (sortTasks ts).map (taskRowOf today (getTimelineRange today (sortTasks ts))) ∧
    List.Perm (sortTasks ts) ts ∧
    List.Sorted (taskLe ts) (sortTasks ts) ∧
    (∀ c : List Task, c.Pairwise (fun a b => codeKey ts a = codeKey ts b) → List.Sublist c ts →
      List.Sublist c (sortTasks ts)) := by
  refine ⟨?_, List.perm_insertionSort _ _, List.sorted_insertionSort _ _, ?_⟩
  · unfold buildBody
    exact buildBodyAux_filter_isTask today _ (sortTasks ts) "" ""
  · intro c hc hsub
    refine List.sublist_insertionSort ?_ hsub
    refine hc.imp fun h => ?_
    unfold taskLe
    rw [h]
    exact lexLe3_refl _

/-- C2 (witness): the singleton list is rendered as its own single task row,
and the singleton tied sublist stays a sublist of the sorted output. -/
theorem sortTasks_order_witness :
    (buildBody 0 [ct3]).filter Row.isTask =
      (sortTasks [ct3]).map (taskRowOf 0 (getTimelineRange 0 (sortTasks [ct3]))) ∧
    List.Perm (sortTasks [ct3]) [ct3] ∧
    List.Sorted (taskLe [ct3]) (sortTasks [ct3]) ∧
    List.Sublist [ct3] (sortTasks [ct3]) := by
  have h := sortTasks_order 0 [ct3]
  exact ⟨h.1, h.2.1, h.2.2.1, h.2.2.2 [ct3] (by simp) (by simp)⟩

/-- Consecutive day runs are sorted. -/
theorem intRange_pairwise (lo : Int) (n : Nat) : (intRange lo n).Pairwise (· ≤ ·) := by
  induction n generalizing lo with
  | zero => exact List.Pairwise.nil
  | succ n ih =>
    refine List.Pairwise.cons ?_ (ih (lo + 1))
    intro x hx
    have := intRange_mem.mp hx
    omega

/-- The date-grid is sorted ascending. -/
theorem getTimelineRange_sorted (today : Int) (tasks : List Task) :
    (getTimelineRange today tasks).Pairwise (· ≤ ·) := by
  cases hmn : (tasks.map Task.startDate).min? with
  | none =>
    simp only [getTimelineRange, hmn]
    exact List.Pairwise.nil
  | some mn =>
    cases hmx : (tasks.map Task.endDate).max? with
    | none =>
      simp only [getTimelineRange, hmn, hmx]
      exact List.Pairwise.nil
    | some mx =>
      simp only [getTimelineRange, hmn, hmx]
      rw [sampleAux_eq_filter]
      exact List.Pairwise.filter _ (intRange_pairwise _ _)

/-- A sorted day list splits into the days before the task interval, the
days inside it, and the days after it. -/
theorem sorted_interval_split (s e : Int) {l : List Int} (hl : l.Pairwise (· ≤ ·)) :
    ∃ A B C, l = A ++ B ++ C ∧ (∀ a ∈ A, ¬(s ≤ a ∧ a ≤ e)) ∧
      (∀ b ∈ B, s ≤ b ∧ b ≤ e) ∧ (∀ c ∈ C, e < c) := by
  induction hl with
  | nil => exact ⟨[], [], [], rfl, by simp, by simp, by simp⟩
  | @cons d rest hd hp ih =>
    obtain ⟨A, B, C, hsplit, hA, hB, hC⟩ := ih
    by_cases h1 : e < d
    · refine ⟨[], [], d :: rest, rfl, by simp, by simp, ?_⟩
      intro c hc
      rcases List.mem_cons.mp hc with rfl | hc
      · exact h1
      · exact lt_of_lt_of_le h1 (hd c hc)
    · by_cases h2 : d < s
      · refine ⟨d :: A, B, C, by simp [hsplit], ?_, hB, hC⟩
        intro a ha
        rcases List.mem_cons.mp ha with rfl | ha
        · omega
        · exact hA a ha
      · cases B with
        | nil =>
          refine ⟨[], [d], rest, by simp, by simp, ?_, ?_⟩
          · intro b hb
            rw [List.mem_singleton.mp hb]
            exact ⟨by omega, by omega⟩
          · intro c hc
            have hdc : d ≤ c := hd c hc
            rw [hsplit] at hc
            simp only [List.append_nil, List.mem_append] at hc
            rcases hc with hc | hc
            · have := hA c hc
              omega
            · exact hC c hc
        | cons b B' =>
          cases A with
          | nil =>
            refine ⟨[], d :: b :: B', C, by rw [hsplit]; rfl, by simp, ?_, hC⟩
            intro x hx
            rcases List.mem_cons.mp hx with rfl | hx
            · exact ⟨by omega, by omega⟩
            · exact hB x hx
          | cons a A' =>
            exfalso
            have ha : ¬(s ≤ a ∧ a ≤ e) := hA a (List.mem_cons_self a A')
            have hda : d ≤ a := hd a (by rw [hsplit]; simp)
            have hb : s ≤ b ∧ b ≤ e := hB b (List.mem_cons_self b B')
            have hab : a ≤ b := by
              rw [hsplit, List.pairwise_append] at hp
              obtain ⟨hp1, -, -⟩ := hp
              rw [List.pairwise_append] at hp1
              exact hp1.2.2 a (List.mem_cons_self a A') b (List.mem_cons_self b B')
            omega

/-- Once the bar is placed, every remaining grid day renders an empty cell
(marked if it is today). -/
theorem rowCellsAux_placed (today s e : Int) (pct : ℚ) (warn : String) (full : List Int) :
    ∀ l : List Int, rowCellsAux today s e pct warn full true l =
      l.map (fun d => Cell.empty (decide (d = today))) := by
  intro l
  induction l with
  | nil => simp [rowCellsAux]
  | cons d ds ih =>
    rw [rowCellsAux]
    simp only [Bool.not_true, Bool.false_and, Bool.false_eq_true, if_false, List.map_cons]
    rw [ih]

/-- Days before the interval each render an empty cell and leave the walk
state unchanged. -/
theorem rowCellsAux_skip (today s e : Int) (pct : ℚ) (warn : String) (full : List Int) :
    ∀ (A rest : List Int), (∀ a ∈ A, ¬(s ≤ a ∧ a ≤ e)) →
      rowCellsAux today s e pct warn full false (A ++ rest) =
        A.map (fun d => Cell.empty (decide (d = today))) ++
          rowCellsAux today s e pct warn full false rest := by
  intro A
  induction A with
  | nil => intro rest _; rfl
  | cons a A' ih =>
    intro rest hA
    have hna := hA a (List.mem_cons_self a A')
    have hcond : (!false && decide (s ≤ a) && decide (a ≤ e)) = false := by
      by_cases hsa : s ≤ a
      · by_cases hae : a ≤ e
        · exact absurd ⟨hsa, hae⟩ hna
        · simp [hsa, hae]
      · simp [hsa]
    rw [List.cons_append, rowCellsAux]
    simp only [hcond, Bool.false_eq_true, if_false, List.map_cons, List.cons_append]
    rw [ih rest (fun x hx => hA x (List.mem_cons_of_mem a hx))]

theorem barMask_cons (c : Cell) (cs : List Cell) :
    barMask (c :: cs) = cellCols c ++ barMask cs := by
  simp [barMask]

theorem barMask_append (xs ys : List Cell) :
    barMask (xs ++ ys) = barMask xs ++ barMask ys := by
  simp [barMask]

theorem barMask_empties (f : Int → Bool) (l : List Int) :
    barMask (l.map (fun d => Cell.empty (f d))) = l.map (fun _ => false) := by
  induction l with
  | nil => rfl
  | cons d ds ih =>
    simp only [List.map_cons, barMask_cons, cellCols, ih, List.replicate]
    rfl

/-- Span layout over any sorted grid: the bar covers exactly the grid
columns whose day lies in `[s, e]`, and the row has a bar cell exactly when
some grid day lies in the interval. -/
theorem rowCells_split (today s e : Int) (pct : ℚ) (warn : String) (range : List Int)
    (hs : range.Pairwise (· ≤ ·)) :
    barMask (rowCells today s e pct warn range) =
      range.map (fun d => decide (s ≤ d ∧ d ≤ e)) ∧
    ((∀ c ∈ rowCells today s e pct warn range, c.isFill = false) ↔
      ∀ d ∈ range, ¬(s ≤ d ∧ d ≤ e)) := by
  obtain ⟨A, B, C, hsplit, hA, hB, hC⟩ := sorted_interval_split s e hs
  subst hsplit
  cases B with
  | nil =>
    have hgoal1 : A ++ [] ++ C = A ++ C := by simp
    rw [hgoal1]
    have hAC : ∀ x ∈ A ++ C, ¬(s ≤ x ∧ x ≤ e) := by
      intro x hx
      rcases List.mem_append.mp hx with hx | hx
      · exact hA x hx
      · have := hC x hx
        omega
    have hcells : rowCells today s e pct warn (A ++ C) =
        (A ++ C).map (fun d => Cell.empty (decide (d = today))) := by
      unfold rowCells
      have h0 := rowCellsAux_skip today s e pct warn (A ++ C) (A ++ C) [] hAC
      rw [List.append_nil] at h0
      rw [h0]
      simp [rowCellsAux]
    rw [hcells]
    constructor
    · rw [barMask_empties]
      refine List.map_eq_map_iff.mpr fun x hx => ?_
      exact (decide_eq_false (hAC x hx)).symm
    · refine iff_of_true ?_ hAC
      intro c hc
      obtain ⟨d, _, rfl⟩ := List.mem_map.mp hc
      rfl
  | cons b B' =>
    have hb := hB b (List.mem_cons_self b B')
    have hfilter : (A ++ (b :: B') ++ C).filter
        (fun dt => decide (s ≤ dt) && decide (dt ≤ e)) = b :: B' := by
      rw [List.filter_append, List.filter_append]
      rw [List.filter_eq_nil_iff.mpr (fun a ha => by
        have := hA a ha
        simp only [Bool.and_eq_true, decide_eq_true_eq]
        tauto)]
      rw [List.filter_eq_self.mpr (fun x hx => by
        have := hB x hx
        simp only [Bool.and_eq_true, decide_eq_true_eq]
        tauto)]
      rw [List.filter_eq_nil_iff.mpr (fun c hc => by
        have := hC c hc
        simp only [Bool.and_eq_true, decide_eq_true_eq]
        omega)]
      simp
    have hspan : ((A ++ (b :: B') ++ C).filter
        (fun dt => decide (s ≤ dt) && decide (dt ≤ e))).length = B'.length + 1 := by
      rw [hfilter]
      simp
    have hcond : (!false && decide (s ≤ b) && decide (b ≤ e)) = true := by
      simp only [Bool.not_false, Bool.true_and, Bool.and_eq_true, decide_eq_true_eq]
      tauto
    have hkey : rowCellsAux today s e pct warn (A ++ (b :: B') ++ C) false (b :: (B' ++ C)) =
        fillCell (B'.length + 1) pct warn ::
          C.map (fun d => Cell.empty (decide (d = today))) := by
      rw [rowCellsAux]
      simp only [hcond, if_true, hspan]
      rw [Nat.add_sub_cancel, List.drop_left, rowCellsAux_placed]
    have hcells : rowCells today s e pct warn (A ++ (b :: B') ++ C) =
        A.map (fun d => Cell.empty (decide (d = today))) ++
          (fillCell (B'.length + 1) pct warn ::
            C.map (fun d => Cell.empty (decide (d = today)))) := by
      unfold rowCells
      have hwalk : A ++ (b :: B') ++ C = A ++ (b :: (B' ++ C)) := by simp
      calc rowCellsAux today s e pct warn (A ++ (b :: B') ++ C) false (A ++ (b :: B') ++ C)
          = rowCellsAux today s e pct warn (A ++ (b :: B') ++ C) false
              (A ++ (b :: (B' ++ C))) := by rw [← hwalk]
        _ = A.map (fun d => Cell.empty (decide (d = today))) ++
              rowCellsAux today s e pct warn (A ++ (b :: B') ++ C) false (b :: (B' ++ C)) :=
            rowCellsAux_skip today s e pct warn _ A _ hA
        _ = _ := by rw [hkey]
    rw [hcells]
    constructor
    · rw [barMask_append, barMask_cons, barMask_empties, barMask_empties]
      have hfillcols : cellCols (fillCell (B'.length + 1) pct warn) =
          true :: List.replicate B'.length true := by
        simp [fillCell, cellCols, List.replicate]
      rw [hfillcols]
      have hmapA : A.map (fun d => decide (s ≤ d ∧ d ≤ e)) = A.map (fun _ => false) :=
        List.map_eq_map_iff.mpr fun x hx => decide_eq_false (hA x hx)
      have hmapB' : B'.map (fun d => decide (s ≤ d ∧ d ≤ e)) = B'.map (fun _ => true) :=
        List.map_eq_map_iff.mpr fun x hx =>
          decide_eq_true (hB x (List.mem_cons_of_mem b hx))
      have hmapC : C.map (fun d => decide (s ≤ d ∧ d ≤ e)) = C.map (fun _ => false) :=
        List.map_eq_map_iff.mpr fun x hx =>
          decide_eq_false (by have := hC x hx; omega)
      have hmapb : decide (s ≤ b ∧ b ≤ e) = true := decide_eq_true hb
      rw [List.map_append, List.map_append, List.map_cons, hmapA, hmapB', hmapC, hmapb,
        List.map_const']
      simp [List.append_assoc]
    · refine iff_of_false ?_ ?_
      · intro hall
        have hmem : fillCell (B'.length + 1) pct warn ∈
            A.map (fun d => Cell.empty (decide (d = today))) ++
              (fillCell (B'.length + 1) pct warn ::
                C.map (fun d => Cell.empty (decide (d = today)))) :=
          List.mem_append_right _ (List.mem_cons_self _ _)
        have := hall _ hmem
        simp [fillCell, Cell.isFill] at this
      · intro hall
        exact hall b (by simp) hb

/-- C3: over the grid computed for the (non-empty) task list, the bar cell
of a task's row covers exactly the grid columns whose date lies in the
task's closed `[startDate, endDate]` interval, and the row has no bar cell
exactly when no grid day lies in that interval. -/
theorem taskRow_span (today : Int) (tasks : List Task) (t : Task) (_ht : t ∈ tasks) :
    barMask (rowCells today t.startDate t.endDate (jsOr0 t.percentComplete)
        (warnClass t.warning) (getTimelineRange today tasks)) =
      (getTimelineRange today tasks).map
        (fun d => decide (t.startDate ≤ d ∧ d ≤ t.endDate)) ∧
    ((∀ c ∈ rowCells today t.startDate t.endDate (jsOr0 t.percentComplete)
        (warnClass t.warning) (getTimelineRange today tasks), c.isFill = false) ↔
      ∀ d ∈ getTimelineRange today tasks, ¬(t.startDate ≤ d ∧ d ≤ t.endDate)) :=
  rowCells_split today t.startDate t.endDate (jsOr0 t.percentComplete)
    (warnClass t.warning) (getTimelineRange today tasks)
    (getTimelineRange_sorted today tasks)

/-- C3 (witness): the single task occupying days 0 to 1 on its own grid. -/
theorem taskRow_span_witness :
    barMask (rowCells 0 wtask3.startDate wtask3.endDate (jsOr0 wtask3.percentComplete)
        (warnClass wtask3.warning) (getTimelineRange 0 [wtask3])) =
      (getTimelineRange 0 [wtask3]).map
        (fun d => decide (wtask3.startDate ≤ d ∧ d ≤ wtask3.endDate)) ∧
    ((∀ c ∈ rowCells 0 wtask3.startDate wtask3.endDate (jsOr0 wtask3.percentComplete)
        (warnClass wtask3.warning) (getTimelineRange 0 [wtask3]), c.isFill = false) ↔
      ∀ d ∈ getTimelineRange 0 [wtask3], ¬(wtask3.startDate ≤ d ∧ d ≤ wtask3.endDate)) :=
  taskRow_span 0 [wtask3] wtask3 (List.mem_singleton_self wtask3)

/-- C9 (witness): a store holding one (empty) caller array at reference 0
is untouched by the render. -/
theorem buildHTMLStore_frame_witness :
    0 < (Store.mk [[]]).arrays.length ∧
    ((buildHTMLStore 0 (Store.mk [[]]) 0).1.get 0 = (Store.mk [[]]).get 0 ∧
      (buildHTMLStore 0 (Store.mk [[]]) 0).2 = buildBody 0 ((Store.mk [[]]).get 0)) :=
  ⟨by decide, buildHTMLStore_frame 0 (Store.mk [[]]) 0 (by decide)⟩

end Gantt
